import Mathlib

/-!
Shallow embedding of the chain indexer in `hac-node/agent`
(`client.go`, `model.go`): the sqlite row types, the gorm-backed store
operations the indexer uses (upsert by primary key, `First` with a
predicate ordered ascending by primary key), the event handlers, the
vote-reconciliation function `handleVote`, the account point query
`queryAccount`, and the polling sync loop `Start`.

Results of external RPC calls (node status, block results, commit,
ABCI point query) are supplied through environment records; `none`
models a call that returned a Go error.  In the source, several call
sites check such an error only to attempt a reconnect and then fall
through to dereference the `nil` result pointer; that Go panic is
modelled by the explicit `crash` outcome of `Res`.
-/

namespace Agent

/-- Outcome of a fallible piece of indexer code.  `crash` models a Go
`nil`-pointer dereference (process panic); `err` models returning a
non-`nil` `error`; `ok` is success.  Every constructor carries the
store state reached so far, because gorm writes performed before a
failure remain persisted (there is no enclosing transaction). -/
inductive Res (α : Type) where
  | crash : α → Res α
  | err : α → Res α
  | ok : α → Res α
deriving Repr, DecidableEq

/-- The payload carried by any outcome. -/
def Res.payload {α : Type} : Res α → α
  | .crash a => a
  | .err a => a
  | .ok a => a

/-- The `model.go` `Validator`, with the fields the Grant handler in
`client.go` actually writes (`Id`, `Address`, `Stake`, `AgentUrl`);
the struct declaration in the checked-in `model.go` is stale relative
to `client.go`'s `handleEventGrant`. -/
structure Validator where
  id : Nat
  address : String
  stake : Nat
  agentUrl : String
deriving Repr, DecidableEq

/-- The `model.go` `Proposal`. -/
structure Proposal where
  id : Nat
  proposerIndex : Nat
  proposerAddress : String
  data : List Nat
  newHeight : Nat
  settleHeight : Nat
  status : Nat
deriving Repr, DecidableEq

/-- The `model.go` `Grant`. -/
structure Grant where
  id : Nat
  address : String
  height : Nat
  stake : Nat
  proposer : Nat
  proposerAddress : String
  grant : Bool
deriving Repr, DecidableEq

/-- The `model.go` `ProposalVote`. -/
structure ProposalVote where
  id : Nat
  proposal : Nat
  voterIndex : Nat
  voterAddress : String
  height : Nat
  vote : Nat
deriving Repr, DecidableEq

/-- The `model.go` `GrantVote`. -/
structure GrantVote where
  id : Nat
  proposerIndex : Nat
  proposerAddress : String
  accountIndex : Nat
  accountAddr : String
  voterIndex : Nat
  voterAddress : String
  height : Nat
  vote : Nat
deriving Repr, DecidableEq

/-- The `model.go` `Discussion`. -/
structure Discussion where
  id : Nat
  proposal : Nat
  speakerIndex : Nat
  speakerAddress : String
  data : List Nat
  height : Nat
deriving Repr, DecidableEq

/-- The `state.Account` (external package `hac-app/state`), as used by the
indexer: a stable numeric index and an address (`acc.Index`,
`acc.Address()`). -/
structure Account where
  index : Nat
  addr : String
deriving Repr, DecidableEq

/-- One commit signature (`res.Commit.Signatures[i]`): the signer's
validator address (hex string) and its vote code. -/
structure CommitSig where
  validatorAddress : String
  voteCode : Nat
deriving Repr, DecidableEq

/-- The commit returned by the `Commit` RPC: its height (`res.Height`)
and the ordered signature list. -/
structure Commit where
  height : Nat
  signatures : List CommitSig
deriving Repr, DecidableEq

/-- The whole sqlite store owned by the indexer.  `heightRow` is the
singleton `Height` record with `Id = 1` (its `Height` column), `none`
when the record does not exist yet. -/
structure DB where
  heightRow : Option Nat
  validators : List Validator
  proposals : List Proposal
  grants : List Grant
  proposalVotes : List ProposalVote
  grantVotes : List GrantVote
  discussions : List Discussion
deriving Repr, DecidableEq

/-- gorm `First` with a `Where` predicate: the matching record with
the smallest primary key, `none` when no record matches
(`gorm.ErrRecordNotFound`). -/
def firstBy {α : Type} (getId : α → Nat) (p : α → Bool) (l : List α) : Option α :=
  match l.filter p with
  | [] => none
  | x :: xs => some (xs.foldl (fun a b => if getId b < getId a then b else a) x)

/-- gorm `Save` of a record whose primary key is set: update in place
when a row with that key exists, insert otherwise. -/
def saveById {α : Type} (getId : α → Nat) (x : α) (l : List α) : List α :=
  if l.any (fun y => getId y == getId x) then
    l.map (fun y => if getId y == getId x then x else y)
  else l ++ [x]

/-- The Go zero value of `Proposal`, the state `First` leaves the
destination struct in on `ErrRecordNotFound`. -/
def zeroProposal : Proposal := ⟨0, 0, "", [], 0, 0, 0⟩

/-- The Go zero value of `Grant`. -/
def zeroGrant : Grant := ⟨0, "", 0, 0, 0, "", false⟩

/-- Environment of one `queryAccount` call: the ABCI point-query
result (`none` = RPC error), and the connection state the code
consults after an error (`cli.IsRunning()`, and whether the attempted
reconnect succeeds). -/
structure QaEnv where
  abciCode : Option Nat
  abciValue : Option Account
  isRunning : Bool
  reconnectOk : Bool

/-- The `ChainIndexer.queryAccount` (client.go 565-602), for a non-empty
hex-decodable address (the only way `handleVote` calls it).  When the
ABCI query errors, the source only reconnects and then falls through
to `res.Response.Code` on the `nil` result: that is `crash` unless the
connection is down and the reconnect fails, in which case it returns
the error.  A non-zero response code or a failed unmarshal of the
response value returns an error. -/
def queryAccount (env : QaEnv) : Res (Option Account) :=
  match env.abciCode with
  | none =>
    if env.isRunning then .crash none
    else if env.reconnectOk then .crash none
    else .err none
  | some code =>
    if code ≠ 0 then .err none
    else
      match env.abciValue with
      | none => .err none
      | some a => .ok (some a)

/-- Environment of one `handleVote` call: the `Commit` RPC result
(`none` = RPC error), the connection state consulted after a commit
error, and per-address `queryAccount` environments. -/
structure HvEnv where
  commitRes : Option Commit
  isRunning : Bool
  reconnectOk : Bool
  qa : String → QaEnv

/-- The per-signature loop shared by the three branches of
`handleVote` (client.go 399-422, 433-456, 467-493): resolve the
signer's account; fail the height if the lookup errs or the account is
absent; then insert a vote row unless one with the same
(height, voter index) key already exists.  `keyOf` projects a row's
(height, voter index); `mk` builds the row to insert from the running
table (for the auto-increment id), the account and the signature. -/
def reconcileSigs {ρ : Type} (env : HvEnv) (vh : Nat) (keyOf : ρ → Nat × Nat)
    (mk : Nat → Account → CommitSig → ρ) :
    List CommitSig → List ρ → Res (List ρ)
  | [], rows => .ok rows
  | v :: rest, rows =>
    match queryAccount (env.qa v.validatorAddress) with
    | .crash _ => .crash rows
    | .err _ => .err rows
    | .ok none => .err rows
    | .ok (some acc) =>
      let rows' :=
        if rows.any (fun r => (keyOf r).1 == vh && (keyOf r).2 == acc.index) then rows
        else rows ++ [mk rows.length acc v]
      reconcileSigs env vh keyOf mk rest rows'

/-- The `Proposal` with creation height `vh`, as found by
`db.Where("new_height = ?", vh).First` — the Go zero value when the
query finds nothing. -/
def newPropAt (db : DB) (vh : Nat) : Proposal :=
  (firstBy Proposal.id (fun p => p.newHeight == vh) db.proposals).getD zeroProposal

/-- The `Proposal` with settlement height `vh`, via
`db.Where("settle_height = ?", vh).First`. -/
def settlePropAt (db : DB) (vh : Nat) : Proposal :=
  (firstBy Proposal.id (fun p => p.settleHeight == vh) db.proposals).getD zeroProposal

/-- The `Grant` with height `vh`, via
`db.Where("height = ?", vh).First`. -/
def grantAt (db : DB) (vh : Nat) : Grant :=
  (firstBy Grant.id (fun g => g.height == vh) db.grants).getD zeroGrant

/-- The `ProposalVote` row inserted for proposal `pid` at height `vh`
(client.go 411-417 and 445-451): the voter address stored is the raw
signature address. -/
def mkProposalVote (vh pid : Nat) (n : Nat) (acc : Account) (v : CommitSig) : ProposalVote :=
  { id := n + 1, proposal := pid, voterIndex := acc.index,
    voterAddress := v.validatorAddress, height := vh, vote := v.voteCode }

/-- The `GrantVote` row inserted for grant `g` at height `vh`
(client.go 479-488): the voter address stored is `acc.Address()`. -/
def mkGrantVote (vh : Nat) (g : Grant) (n : Nat) (acc : Account) (v : CommitSig) : GrantVote :=
  { id := n + 1, proposerIndex := g.proposer, proposerAddress := g.proposerAddress,
    accountIndex := g.id, accountAddr := g.address, voterIndex := acc.index,
    voterAddress := acc.addr, height := vh, vote := v.voteCode }

/-- Lift an outcome on one table to an outcome on the whole store. -/
def Res.mapRes {α β : Type} (f : α → β) : Res α → Res β
  | .crash a => .crash (f a)
  | .err a => .err (f a)
  | .ok a => .ok (f a)

/-- The `ChainIndexer.handleVote` (client.go 377-497).  When the `Commit`
RPC errs, the source reconnects and then unconditionally reads
`res.Height` from the `nil` result — a crash unless the connection is
down and the reconnect fails, which returns the error.  Otherwise it
checks, in order: a `Proposal` whose `new_height` is the commit
height, a `Proposal` whose `settle_height` is it, a `Grant` whose
`height` is it — each guarded by `record.Id != 0`, which conflates a
found record with primary key 0 with no record — and reconciles the
first match's votes, returning `nil` when none match. -/
def handleVote (env : HvEnv) (db : DB) : Res DB :=
  match env.commitRes with
  | none =>
    if env.isRunning then .crash db
    else if env.reconnectOk then .crash db
    else .err db
  | some res =>
    let vh := res.height
    let np := newPropAt db vh
    if np.id ≠ 0 then
      ((reconcileSigs env vh (fun r => (r.height, r.voterIndex)) (mkProposalVote vh np.id)
          res.signatures db.proposalVotes).mapRes
        (fun w => { db with proposalVotes := w }))
    else
      let sp := settlePropAt db vh
      if sp.id ≠ 0 then
        ((reconcileSigs env vh (fun r => (r.height, r.voterIndex)) (mkProposalVote vh sp.id)
            res.signatures db.proposalVotes).mapRes
          (fun w => { db with proposalVotes := w }))
      else
        let g := grantAt db vh
        if g.id ≠ 0 then
          ((reconcileSigs env vh (fun r => (r.height, r.voterIndex)) (mkGrantVote vh g)
              res.signatures db.grantVotes).mapRes
            (fun w => { db with grantVotes := w }))
        else .ok db

/-- Decoded `EventGrant` (external `hac_types.ParseEventGrant`), with
the fields the Grant handler reads. -/
structure EventGrant where
  validator : Nat
  address : String
  amount : Nat
  proposerIndex : Nat
  proposerAddress : String
  grant : Bool
  agentUrl : String
deriving Repr, DecidableEq

/-- Decoded `EventDiscussion` (external
`hac_types.DecodeEventDiscussion`). -/
structure EventDiscussion where
  proposal : Nat
  speaker : Nat
  speakerAddress : String
  data : List Nat
deriving Repr, DecidableEq

/-- Decoded `EventSettleProposal` (external
`hac_types.DecodeEventSettleProposal`). -/
structure EventSettleProposal where
  proposal : Nat
  state : Nat
deriving Repr, DecidableEq

/-- Decoded `EventProposal` (external
`hac_types.DecodeEventProposal`). -/
structure EventProposal where
  proposalIndex : Nat
  proposer : Nat
  proposerAddress : String
  data : List Nat
  status : Nat
deriving Repr, DecidableEq

/-- A raw chain event as the dispatcher sees it: its type tag
(the four tags registered in `NewChainIndexer`'s handler map, or an
unknown tag) together with the result of the external decoder for
that tag — `none` models a decode failure (`ParseEventGrant` /
`DecodeEvent*` returning `nil`). -/
inductive Event where
  | grant : Option EventGrant → Event
  | discussion : Option EventDiscussion → Event
  | settleProposal : Option EventSettleProposal → Event
  | proposal : Option EventProposal → Event
  | unknown : Event
deriving Repr, DecidableEq

/-- The `ChainIndexer.handleEventGrant` (client.go 278-306): decode or
skip, then `Save` a `Grant` keyed by the validator index and a
`Validator` keyed by the same index.  Store-write errors are logged
and swallowed. -/
def handleEventGrant (db : DB) (d : Option EventGrant) (h : Nat) : DB :=
  match d with
  | none => db
  | some ev =>
    let g : Grant :=
      { id := ev.validator, address := ev.address, height := h, stake := ev.amount,
        proposer := ev.proposerIndex, proposerAddress := ev.proposerAddress,
        grant := ev.grant }
    let v : Validator :=
      { id := ev.validator, address := ev.address, stake := ev.amount,
        agentUrl := ev.agentUrl }
    let db1 := { db with grants := saveById Grant.id g db.grants }
    { db1 with validators := saveById Validator.id v db1.validators }

/-- The `ChainIndexer.handleEventDiscussion` (client.go 308-328): decode
or skip, append a `Discussion` row (blank primary key, assigned by the
store), then notify the advisory agent — an external side effect whose
failure is logged and swallowed, with no store impact. -/
def handleEventDiscussion (db : DB) (d : Option EventDiscussion) (h : Nat) : DB :=
  match d with
  | none => db
  | some ev =>
    let row : Discussion :=
      { id := db.discussions.length + 1, proposal := ev.proposal,
        speakerIndex := ev.speaker, speakerAddress := ev.speakerAddress,
        data := ev.data, height := h }
    { db with discussions := db.discussions ++ [row] }

/-- The `ChainIndexer.handleEventSettleProposal` (client.go 330-346):
decode or skip, look the proposal up by primary key (absence is
logged and the write skipped), then set its status and settlement
height to the event's state and the current height, unconditionally,
and `Save`. -/
def handleEventSettleProposal (db : DB) (d : Option EventSettleProposal) (h : Nat) : DB :=
  match d with
  | none => db
  | some ev =>
    match firstBy Proposal.id (fun p => p.id == ev.proposal) db.proposals with
    | none => db
    | some p =>
      let p' : Proposal := { p with status := ev.state, settleHeight := h }
      { db with proposals := saveById Proposal.id p' db.proposals }

/-- The `ChainIndexer.handleEventProposal` (client.go 348-375): decode or
skip, `Save` a `Proposal` keyed by the proposal index with the current
height as creation height — the struct literal leaves `SettleHeight`
at its zero value, so a replay overwrites any recorded settlement —
then notify the advisory agent (external side effects, logged and
swallowed). -/
def handleEventProposal (db : DB) (d : Option EventProposal) (h : Nat) : DB :=
  match d with
  | none => db
  | some ev =>
    let p : Proposal :=
      { id := ev.proposalIndex, proposerIndex := ev.proposer,
        proposerAddress := ev.proposerAddress, data := ev.data,
        newHeight := h, settleHeight := 0, status := ev.status }
    { db with proposals := saveById Proposal.id p db.proposals }

/-- The `ChainIndexer.handleEvent` (client.go 272-276): dispatch on the
event's type tag through the handler map; unknown tags are ignored. -/
def handleEvent (db : DB) (e : Event) (h : Nat) : DB :=
  match e with
  | .grant d => handleEventGrant db d h
  | .discussion d => handleEventDiscussion db d h
  | .settleProposal d => handleEventSettleProposal db d h
  | .proposal d => handleEventProposal db d h
  | .unknown => db

/-- The nested dispatch loop in `Start` (client.go 542-546): every
event of every transaction result of the height's block results, in
order. -/
def dispatchTxs (txs : List (List Event)) (h : Nat) (db : DB) : DB :=
  txs.foldl (fun d evs => evs.foldl (fun d e => handleEvent d e h) d) db

/-- In-memory indexer state relevant to the sync loop: the store and
`c.Height`, the next height to index. -/
structure IndexerState where
  db : DB
  memHeight : Nat
deriving Repr, DecidableEq

/-- Environment of one iteration of the catch-up loop body: the
`BlockResults` RPC outcome (`none` = error), the connection state
consulted after such an error, the `handleVote` environment for this
height, and whether the `Save` of the new `Height` record succeeds. -/
structure HeightEnv where
  blockRes : Option (List (List Event))
  brRunning : Bool
  brReconnectOk : Bool
  hv : HvEnv
  saveHeightOk : Bool

/-- One iteration of the catch-up loop body in `ChainIndexer.Start`
(client.go 527-560), at height `s.memHeight`.  A `BlockResults` error
reconnects and then falls through to `events.TxsResults` on the `nil`
result (crash), except that a failed reconnect `continue`s the loop
(`err`: same height retried).  Otherwise every event is dispatched,
then `handleVote` runs; its error `continue`s without saving; then the
`Height` record is saved — a failed save `continue`s without
incrementing — and only then is `c.Height` incremented. -/
def stepHeight (env : HeightEnv) (s : IndexerState) : Res IndexerState :=
  match env.blockRes with
  | none =>
    if env.brRunning then .crash s
    else if env.brReconnectOk then .crash s
    else .err s
  | some txs =>
    let db1 := dispatchTxs txs s.memHeight s.db
    match handleVote env.hv db1 with
    | .crash d => .crash ⟨d, s.memHeight⟩
    | .err d => .err ⟨d, s.memHeight⟩
    | .ok d =>
      if env.saveHeightOk then
        .ok ⟨{ d with heightRow := some s.memHeight }, s.memHeight + 1⟩
      else .err ⟨d, s.memHeight⟩

/-- How a tick of `Start` ends: the catch-up condition became false
(`done`), the process panicked (`crashed`), or the modelling fuel ran
out while the loop was still spinning on errors inside the tick
(`spin`). -/
inductive TickRes where
  | done : IndexerState → TickRes
  | crashed : IndexerState → TickRes
  | spin : IndexerState → TickRes
deriving Repr, DecidableEq

/-- The state a tick outcome carries. -/
def TickRes.state : TickRes → IndexerState
  | .done s => s
  | .crashed s => s
  | .spin s => s

/-- The inner `for b.SyncInfo.LatestBlockHeight > c.Height` loop of
`Start` (client.go 527-560): `latest` is the chain head fetched once
at the start of the tick; `envs k` is the environment of the `k`-th
iteration of the loop within this tick.  A `continue` (any handled
error) re-enters the loop at the same height within the same tick,
after a 100 ms sleep. -/
def tickLoopAux (latest : Nat) (envs : Nat → HeightEnv) :
    Nat → Nat → IndexerState → TickRes
  | 0, _, s => .spin s
  | fuel + 1, k, s =>
    if latest > s.memHeight then
      match stepHeight (envs k) s with
      | .crash s' => .crashed s'
      | .err s' => tickLoopAux latest envs fuel (k + 1) s'
      | .ok s' => tickLoopAux latest envs fuel (k + 1) s'
    else .done s

/-- Environment of one whole tick: the `Status` RPC outcome (`none` =
error), the connection state consulted after a status error, the
per-iteration catch-up environments, and the modelling fuel bounding
how many catch-up iterations the tick is observed for. -/
structure TickEnv where
  statusRes : Option Nat
  stRunning : Bool
  stReconnectOk : Bool
  envs : Nat → HeightEnv
  fuel : Nat

/-- One tick of `Start` (client.go 507-560): query the chain status; a
status error reconnects and then falls through to `b.SyncInfo` on the
`nil` result (crash), except that a failed reconnect `continue`s to
the next tick; on success, run the catch-up loop against the fetched
head. -/
def runTick (te : TickEnv) (s : IndexerState) : TickRes :=
  match te.statusRes with
  | none =>
    if te.stRunning then .crashed s
    else if te.stReconnectOk then .crashed s
    else .done s
  | some latest => tickLoopAux latest te.envs te.fuel 0 s

/-- A sequence of ticks of `Start`.  A crash kills the process, and a
tick whose loop is still spinning never reaches the next tick, so both
are absorbing. -/
def runTicks : List TickEnv → IndexerState → IndexerState
  | [], s => s
  | te :: rest, s =>
    match runTick te s with
    | .crashed s' => s'
    | .spin s' => s'
    | .done s' => runTicks rest s'

/-- The `NewChainIndexer` (client.go 236-268) reading its resume point:
`First` on the `Height` record with `Id = 1` leaves the struct's
`Height` field at 0 on `ErrRecordNotFound`, and `c.Height` starts at
that value plus one. -/
def initialState (db : DB) : IndexerState :=
  ⟨db, db.heightRow.getD 0 + 1⟩

/-- The persisted index progress a store reports: the singleton
`Height` record's value, 0 when the record does not exist. -/
def persisted (s : IndexerState) : Nat :=
  s.db.heightRow.getD 0

/-- Whether an outcome is the modelled Go panic. -/
def Res.isCrash {α : Type} : Res α → Bool
  | .crash _ => true
  | _ => false

/-- An account lookup outcome that fails the height in `handleVote`:
a returned error, or a `nil` account. -/
def badLookup : Res (Option Account) → Bool
  | .err _ => true
  | .ok none => true
  | _ => false

/-- At most one row per (height, voter index) key in a vote table. -/
def NoDupKeys {ρ : Type} (keyOf : ρ → Nat × Nat) (l : List ρ) : Prop :=
  l.Pairwise (fun r1 r2 => keyOf r1 ≠ keyOf r2)

lemma Res.payload_mapRes {α β : Type} (f : α → β) (r : Res α) :
    (r.mapRes f).payload = f r.payload := by
  cases r <;> rfl

lemma Res.mapRes_ok_inv {α β : Type} {f : α → β} {r : Res α} {b : β}
    (h : r.mapRes f = .ok b) : ∃ a, r = .ok a ∧ b = f a := by
  cases r with
  | ok a => exact ⟨a, rfl, by injection h with h; exact h.symm⟩
  | crash a => exact absurd h (by simp [Res.mapRes])
  | err a => exact absurd h (by simp [Res.mapRes])

lemma Res.mapRes_err_inv {α β : Type} {f : α → β} {r : Res α} {b : β}
    (h : r.mapRes f = .err b) : ∃ a, r = .err a ∧ b = f a := by
  cases r with
  | err a => exact ⟨a, rfl, by injection h with h; exact h.symm⟩
  | crash a => exact absurd h (by simp [Res.mapRes])
  | ok a => exact absurd h (by simp [Res.mapRes])

/-- Every run of the per-signature loop only appends rows, and every
appended row was built by `mk` from a signature of the list whose
account resolved. -/
lemma reconcileSigs_append {ρ : Type} (env : HvEnv) (vh : Nat) (keyOf : ρ → Nat × Nat)
    (mk : Nat → Account → CommitSig → ρ) :
    ∀ (sigs : List CommitSig) (rows : List ρ),
      ∃ ext, (reconcileSigs env vh keyOf mk sigs rows).payload = rows ++ ext ∧
        ∀ r ∈ ext, ∃ n a v, v ∈ sigs ∧
          queryAccount (env.qa v.validatorAddress) = .ok (some a) ∧ r = mk n a v := by
  intro sigs
  induction sigs with
  | nil =>
    intro rows
    exact ⟨[], by simp [reconcileSigs, Res.payload], by simp⟩
  | cons v rest ih =>
    intro rows
    cases hq : queryAccount (env.qa v.validatorAddress) with
    | crash x =>
      exact ⟨[], by simp [reconcileSigs, hq, Res.payload], by simp⟩
    | err x =>
      exact ⟨[], by simp [reconcileSigs, hq, Res.payload], by simp⟩
    | ok oa =>
      cases oa with
      | none =>
        exact ⟨[], by simp [reconcileSigs, hq, Res.payload], by simp⟩
      | some acc =>
        by_cases hany :
            rows.any (fun r => (keyOf r).1 == vh && (keyOf r).2 == acc.index) = true
        · obtain ⟨ext, h1, h2⟩ := ih rows
          refine ⟨ext, ?_, ?_⟩
          · simpa [reconcileSigs, hq, hany] using h1
          · intro r hr
            obtain ⟨n, a, w, hw, hqa, hrm⟩ := h2 r hr
            exact ⟨n, a, w, List.mem_cons_of_mem _ hw, hqa, hrm⟩
        · obtain ⟨ext, h1, h2⟩ := ih (rows ++ [mk rows.length acc v])
          refine ⟨mk rows.length acc v :: ext, ?_, ?_⟩
          · simpa [reconcileSigs, hq, hany] using h1
          · intro r hr
            rcases List.mem_cons.mp hr with hr | hr
            · exact ⟨rows.length, acc, v, List.mem_cons_self _ _, hq, hr⟩
            · obtain ⟨n, a, w, hw, hqa, hrm⟩ := h2 r hr
              exact ⟨n, a, w, List.mem_cons_of_mem _ hw, hqa, hrm⟩

/-- After a successful run, every signature's account resolved and its
(height, voter index) key is present in the resulting table. -/
lemma reconcileSigs_ok_mem {ρ : Type} (env : HvEnv) (vh : Nat) (keyOf : ρ → Nat × Nat)
    (mk : Nat → Account → CommitSig → ρ)
    (hmk : ∀ n a v, keyOf (mk n a v) = (vh, a.index)) :
    ∀ (sigs : List CommitSig) (rows rows' : List ρ),
      reconcileSigs env vh keyOf mk sigs rows = .ok rows' →
      ∀ v ∈ sigs, ∃ a, queryAccount (env.qa v.validatorAddress) = .ok (some a) ∧
        rows'.any (fun r => (keyOf r).1 == vh && (keyOf r).2 == a.index) = true := by
  intro sigs
  induction sigs with
  | nil => intro rows rows' _ v hv; exact absurd hv (List.not_mem_nil v)
  | cons v rest ih =>
    intro rows rows' hrun w hw
    cases hq : queryAccount (env.qa v.validatorAddress) with
    | crash x => rw [reconcileSigs, hq] at hrun; exact absurd hrun (by simp)
    | err x => rw [reconcileSigs, hq] at hrun; exact absurd hrun (by simp)
    | ok oa =>
      cases oa with
      | none => rw [reconcileSigs, hq] at hrun; exact absurd hrun (by simp)
      | some acc =>
        rw [reconcileSigs, hq] at hrun
        simp only at hrun
        rcases List.mem_cons.mp hw with heq | hw
        · rw [heq]
          refine ⟨acc, hq, ?_⟩
          by_cases hany :
              rows.any (fun r => (keyOf r).1 == vh && (keyOf r).2 == acc.index) = true
          · rw [if_pos hany] at hrun
            obtain ⟨ext, h1, _⟩ := reconcileSigs_append env vh keyOf mk rest rows
            rw [hrun] at h1
            simp only [Res.payload] at h1
            rw [h1, List.any_append, hany, Bool.true_or]
          · rw [if_neg hany] at hrun
            obtain ⟨ext, h1, _⟩ :=
              reconcileSigs_append env vh keyOf mk rest (rows ++ [mk rows.length acc v])
            rw [hrun] at h1
            simp only [Res.payload] at h1
            rw [h1, List.any_append, List.any_append]
            simp [hmk rows.length acc v]
        · exact ih _ _ hrun w hw

/-- When every signature's account resolves and its key is already in
the table, the loop inserts nothing and succeeds with the table
unchanged. -/
lemma reconcileSigs_stable {ρ : Type} (env : HvEnv) (vh : Nat) (keyOf : ρ → Nat × Nat)
    (mk : Nat → Account → CommitSig → ρ) :
    ∀ (sigs : List CommitSig) (w : List ρ),
      (∀ v ∈ sigs, ∃ a, queryAccount (env.qa v.validatorAddress) = .ok (some a) ∧
        w.any (fun r => (keyOf r).1 == vh && (keyOf r).2 == a.index) = true) →
      reconcileSigs env vh keyOf mk sigs w = .ok w := by
  intro sigs
  induction sigs with
  | nil => intro w _; rfl
  | cons v rest ih =>
    intro w hall
    obtain ⟨a, hq, hany⟩ := hall v (List.mem_cons_self _ _)
    rw [reconcileSigs, hq]
    simp only [if_pos hany]
    exact ih w (fun u hu => hall u (List.mem_cons_of_mem _ hu))

/-- The per-signature loop never creates a duplicate
(height, voter index) key. -/
lemma reconcileSigs_nodup {ρ : Type} (env : HvEnv) (vh : Nat) (keyOf : ρ → Nat × Nat)
    (mk : Nat → Account → CommitSig → ρ)
    (hmk : ∀ n a v, keyOf (mk n a v) = (vh, a.index)) :
    ∀ (sigs : List CommitSig) (rows : List ρ), NoDupKeys keyOf rows →
      NoDupKeys keyOf (reconcileSigs env vh keyOf mk sigs rows).payload := by
  intro sigs
  induction sigs with
  | nil => intro rows h; simpa [reconcileSigs, Res.payload] using h
  | cons v rest ih =>
    intro rows hnd
    cases hq : queryAccount (env.qa v.validatorAddress) with
    | crash x => simpa [reconcileSigs, hq, Res.payload] using hnd
    | err x => simpa [reconcileSigs, hq, Res.payload] using hnd
    | ok oa =>
      cases oa with
      | none => simpa [reconcileSigs, hq, Res.payload] using hnd
      | some acc =>
        rw [reconcileSigs, hq]
        simp only
        by_cases hany :
            rows.any (fun r => (keyOf r).1 == vh && (keyOf r).2 == acc.index) = true
        · rw [if_pos hany]; exact ih rows hnd
        · rw [if_neg hany]
          refine ih _ ?_
          unfold NoDupKeys
          rw [List.pairwise_append]
          refine ⟨hnd, List.pairwise_singleton _ _, ?_⟩
          intro r hr x hx
          rw [List.mem_singleton] at hx
          rw [hx, hmk rows.length acc v]
          rw [Bool.not_eq_true, List.any_eq_false] at hany
          have hfr := hany r hr
          intro hkey
          rw [hkey] at hfr
          simp at hfr

/-- When every signature's account resolves, the loop succeeds. -/
lemma reconcileSigs_allOk {ρ : Type} (env : HvEnv) (vh : Nat) (keyOf : ρ → Nat × Nat)
    (mk : Nat → Account → CommitSig → ρ) :
    ∀ (sigs : List CommitSig) (rows : List ρ),
      (∀ v ∈ sigs, ∃ a, queryAccount (env.qa v.validatorAddress) = .ok (some a)) →
      ∃ w, reconcileSigs env vh keyOf mk sigs rows = .ok w := by
  intro sigs
  induction sigs with
  | nil => intro rows _; exact ⟨rows, rfl⟩
  | cons v rest ih =>
    intro rows hall
    obtain ⟨a, hq⟩ := hall v (List.mem_cons_self _ _)
    rw [reconcileSigs, hq]
    simp only
    exact ih _ (fun u hu => hall u (List.mem_cons_of_mem _ hu))

/-- When no lookup crashes and some signature's lookup fails (an error
or an absent account), the loop returns an error. -/
lemma reconcileSigs_badsig {ρ : Type} (env : HvEnv) (vh : Nat) (keyOf : ρ → Nat × Nat)
    (mk : Nat → Account → CommitSig → ρ) :
    ∀ (sigs : List CommitSig) (rows : List ρ),
      (∀ v ∈ sigs, (queryAccount (env.qa v.validatorAddress)).isCrash = false) →
      (∃ v ∈ sigs, badLookup (queryAccount (env.qa v.validatorAddress)) = true) →
      ∃ w, reconcileSigs env vh keyOf mk sigs rows = .err w := by
  intro sigs
  induction sigs with
  | nil => intro rows _ hbad; simp at hbad
  | cons v rest ih =>
    intro rows hnc hbad
    cases hq : queryAccount (env.qa v.validatorAddress) with
    | crash x =>
      have hcr := hnc v (List.mem_cons_self _ _)
      rw [hq] at hcr
      simp [Res.isCrash] at hcr
    | err x => exact ⟨rows, by rw [reconcileSigs, hq]⟩
    | ok oa =>
      cases oa with
      | none => exact ⟨rows, by rw [reconcileSigs, hq]⟩
      | some acc =>
        rw [reconcileSigs, hq]
        simp only
        refine ih _ (fun u hu => hnc u (List.mem_cons_of_mem _ hu)) ?_
        obtain ⟨u, hu, hbu⟩ := hbad
        rcases List.mem_cons.mp hu with heq | hu2
        · rw [heq, hq] at hbu; simp [badLookup] at hbu
        · exact ⟨u, hu2, hbu⟩

/-- The `handleVote` only ever writes vote rows: every other table and the
progress record are untouched, in every outcome. -/
lemma handleVote_frame (env : HvEnv) (db : DB) :
    (handleVote env db).payload.heightRow = db.heightRow ∧
    (handleVote env db).payload.validators = db.validators ∧
    (handleVote env db).payload.proposals = db.proposals ∧
    (handleVote env db).payload.grants = db.grants ∧
    (handleVote env db).payload.discussions = db.discussions := by
  unfold handleVote
  cases env.commitRes with
  | none =>
    by_cases h1 : env.isRunning <;> by_cases h2 : env.reconnectOk <;>
      simp [h1, h2, Res.payload]
  | some res =>
    simp only
    by_cases h1 : (newPropAt db res.height).id ≠ 0
    · simp [h1, Res.payload_mapRes]
    · by_cases h2 : (settlePropAt db res.height).id ≠ 0
      · simp [h1, h2, Res.payload_mapRes]
      · by_cases h3 : (grantAt db res.height).id ≠ 0
        · simp [h1, h2, h3, Res.payload_mapRes]
        · simp [h1, h2, h3, Res.payload]

/-- Event handlers never touch the progress record or the vote
tables. -/
lemma handleEvent_frame (db : DB) (e : Event) (h : Nat) :
    (handleEvent db e h).heightRow = db.heightRow ∧
    (handleEvent db e h).proposalVotes = db.proposalVotes ∧
    (handleEvent db e h).grantVotes = db.grantVotes := by
  cases e with
  | grant d => cases d <;> simp [handleEvent, handleEventGrant]
  | discussion d => cases d <;> simp [handleEvent, handleEventDiscussion]
  | settleProposal d =>
    cases d with
    | none => simp [handleEvent, handleEventSettleProposal]
    | some ev =>
      simp only [handleEvent, handleEventSettleProposal]
      cases firstBy Proposal.id (fun p => p.id == ev.proposal) db.proposals <;> simp
  | proposal d => cases d <;> simp [handleEvent, handleEventProposal]
  | unknown => simp [handleEvent]

lemma dispatchEvents_frame (h : Nat) :
    ∀ (evs : List Event) (db : DB),
      (evs.foldl (fun d e => handleEvent d e h) db).heightRow = db.heightRow ∧
      (evs.foldl (fun d e => handleEvent d e h) db).proposalVotes = db.proposalVotes ∧
      (evs.foldl (fun d e => handleEvent d e h) db).grantVotes = db.grantVotes := by
  intro evs
  induction evs with
  | nil => intro db; exact ⟨rfl, rfl, rfl⟩
  | cons e rest ih =>
    intro db
    rw [List.foldl_cons]
    obtain ⟨a, b, c⟩ := ih (handleEvent db e h)
    obtain ⟨a', b', c'⟩ := handleEvent_frame db e h
    exact ⟨a.trans a', b.trans b', c.trans c'⟩

/-- The dispatch loop never touches the progress record or the vote
tables. -/
lemma dispatchTxs_frame (h : Nat) (txs : List (List Event)) (db : DB) :
    (dispatchTxs txs h db).heightRow = db.heightRow ∧
    (dispatchTxs txs h db).proposalVotes = db.proposalVotes ∧
    (dispatchTxs txs h db).grantVotes = db.grantVotes := by
  induction txs generalizing db with
  | nil => exact ⟨rfl, rfl, rfl⟩
  | cons evs rest ih =>
    unfold dispatchTxs at *
    rw [List.foldl_cons]
    obtain ⟨a, b, c⟩ := ih (evs.foldl (fun d e => handleEvent d e h) db)
    obtain ⟨a', b', c'⟩ := dispatchEvents_frame h evs db
    exact ⟨a.trans a', b.trans b', c.trans c'⟩

/-- A `continue` of the catch-up loop body leaves both the in-memory
height and the persisted progress record where they were. -/
lemma stepHeight_err_state {env : HeightEnv} {s s' : IndexerState}
    (h : stepHeight env s = .err s') :
    s'.memHeight = s.memHeight ∧ s'.db.heightRow = s.db.heightRow := by
  unfold stepHeight at h
  cases hb : env.blockRes with
  | none =>
    rw [hb] at h
    by_cases h1 : env.brRunning
    · simp [h1] at h
    · by_cases h2 : env.brReconnectOk
      · simp [h1, h2] at h
      · simp [h1, h2] at h
        exact ⟨by rw [← h], by rw [← h]⟩
  | some txs =>
    rw [hb] at h
    simp only at h
    have hfr := (handleVote_frame env.hv (dispatchTxs txs s.memHeight s.db)).1
    have hdf := (dispatchTxs_frame s.memHeight txs s.db).1
    cases hv : handleVote env.hv (dispatchTxs txs s.memHeight s.db) with
    | crash d => rw [hv] at h; simp at h
    | err d =>
      rw [hv] at h
      injection h with h
      rw [hv] at hfr
      simp only [Res.payload] at hfr
      exact ⟨by rw [← h], by rw [← h]; exact hfr.trans hdf⟩
    | ok d =>
      rw [hv] at h
      by_cases hs : env.saveHeightOk
      · simp [hs] at h
      · simp only [if_neg hs] at h
        injection h with h
        rw [hv] at hfr
        simp only [Res.payload] at hfr
        exact ⟨by rw [← h], by rw [← h]; exact hfr.trans hdf⟩

/-- A crash of the catch-up loop body happens before the progress
record is written. -/
lemma stepHeight_crash_state {env : HeightEnv} {s s' : IndexerState}
    (h : stepHeight env s = .crash s') :
    s'.memHeight = s.memHeight ∧ s'.db.heightRow = s.db.heightRow := by
  unfold stepHeight at h
  cases hb : env.blockRes with
  | none =>
    rw [hb] at h
    by_cases h1 : env.brRunning
    · rw [if_pos h1] at h
      injection h with h
      exact ⟨by rw [← h], by rw [← h]⟩
    · by_cases h2 : env.brReconnectOk
      · rw [if_neg h1, if_pos h2] at h
        injection h with h
        exact ⟨by rw [← h], by rw [← h]⟩
      · simp [h1, h2] at h
  | some txs =>
    rw [hb] at h
    simp only at h
    have hfr := (handleVote_frame env.hv (dispatchTxs txs s.memHeight s.db)).1
    have hdf := (dispatchTxs_frame s.memHeight txs s.db).1
    cases hv : handleVote env.hv (dispatchTxs txs s.memHeight s.db) with
    | crash d =>
      rw [hv] at h
      injection h with h
      rw [hv] at hfr
      simp only [Res.payload] at hfr
      exact ⟨by rw [← h], by rw [← h]; exact hfr.trans hdf⟩
    | err d => rw [hv] at h; simp at h
    | ok d =>
      rw [hv] at h
      by_cases hs : env.saveHeightOk <;> simp [hs] at h

/-- A successful catch-up iteration writes the processed height to the
progress record and increments the in-memory height, and only happens
when the height save succeeded. -/
lemma stepHeight_ok_state {env : HeightEnv} {s s' : IndexerState}
    (h : stepHeight env s = .ok s') :
    s'.memHeight = s.memHeight + 1 ∧ s'.db.heightRow = some s.memHeight ∧
    env.saveHeightOk = true := by
  unfold stepHeight at h
  cases hb : env.blockRes with
  | none =>
    rw [hb] at h
    by_cases h1 : env.brRunning <;> by_cases h2 : env.brReconnectOk <;>
      simp [h1, h2] at h
  | some txs =>
    rw [hb] at h
    simp only at h
    cases hv : handleVote env.hv (dispatchTxs txs s.memHeight s.db) with
    | crash d => rw [hv] at h; simp at h
    | err d => rw [hv] at h; simp at h
    | ok d =>
      rw [hv] at h
      by_cases hs : env.saveHeightOk
      · simp only [if_pos hs] at h
        injection h with h
        exact ⟨by rw [← h], by rw [← h], hs⟩
      · simp [hs] at h

lemma handleVote_eq_none {env : HvEnv} (db : DB) (hc : env.commitRes = none) :
    handleVote env db =
      (if env.isRunning then .crash db
       else if env.reconnectOk then .crash db else .err db) := by
  unfold handleVote
  rw [hc]

lemma handleVote_eq_new {env : HvEnv} {db : DB} {res : Commit}
    (hc : env.commitRes = some res) (h1 : (newPropAt db res.height).id ≠ 0) :
    handleVote env db =
      (reconcileSigs env res.height (fun r => (r.height, r.voterIndex))
        (mkProposalVote res.height (newPropAt db res.height).id)
        res.signatures db.proposalVotes).mapRes
        (fun w => { db with proposalVotes := w }) := by
  unfold handleVote
  rw [hc]
  simp only [if_pos h1]

lemma handleVote_eq_settle {env : HvEnv} {db : DB} {res : Commit}
    (hc : env.commitRes = some res) (h1 : (newPropAt db res.height).id = 0)
    (h2 : (settlePropAt db res.height).id ≠ 0) :
    handleVote env db =
      (reconcileSigs env res.height (fun r => (r.height, r.voterIndex))
        (mkProposalVote res.height (settlePropAt db res.height).id)
        res.signatures db.proposalVotes).mapRes
        (fun w => { db with proposalVotes := w }) := by
  unfold handleVote
  rw [hc]
  simp only [h1, if_pos h2]
  simp

lemma handleVote_eq_grant {env : HvEnv} {db : DB} {res : Commit}
    (hc : env.commitRes = some res) (h1 : (newPropAt db res.height).id = 0)
    (h2 : (settlePropAt db res.height).id = 0)
    (h3 : (grantAt db res.height).id ≠ 0) :
    handleVote env db =
      (reconcileSigs env res.height (fun r => (r.height, r.voterIndex))
        (mkGrantVote res.height (grantAt db res.height))
        res.signatures db.grantVotes).mapRes
        (fun w => { db with grantVotes := w }) := by
  unfold handleVote
  rw [hc]
  simp only [h1, h2, if_pos h3]
  simp

lemma handleVote_eq_nomatch {env : HvEnv} {db : DB} {res : Commit}
    (hc : env.commitRes = some res) (h1 : (newPropAt db res.height).id = 0)
    (h2 : (settlePropAt db res.height).id = 0)
    (h3 : (grantAt db res.height).id = 0) :
    handleVote env db = .ok db := by
  unfold handleVote
  rw [hc]
  simp [h1, h2, h3]

lemma saveById_mem {α : Type} (getId : α → Nat) (x : α) (l : List α) :
    x ∈ saveById getId x l := by
  unfold saveById
  by_cases h : l.any (fun y => getId y == getId x) = true
  · rw [if_pos h]
    rw [List.any_eq_true] at h
    obtain ⟨y, hy, hyx⟩ := h
    rw [List.mem_map]
    exact ⟨y, hy, by simp [hyx]⟩
  · rw [if_neg h]
    exact List.mem_append_right _ (List.mem_singleton_self x)

lemma saveById_mem_of_ne {α : Type} (getId : α → Nat) (x w : α) (l : List α)
    (hw : w ∈ l) (hne : getId w ≠ getId x) : w ∈ saveById getId x l := by
  unfold saveById
  by_cases h : l.any (fun y => getId y == getId x) = true
  · rw [if_pos h, List.mem_map]
    refine ⟨w, hw, ?_⟩
    rw [if_neg (by simpa using hne)]
  · rw [if_neg h]
    exact List.mem_append_left _ hw

lemma saveById_key_surv {α : Type} (getId : α → Nat) (x w : α) (l : List α)
    (hw : w ∈ l) : ∃ w' ∈ saveById getId x l, getId w' = getId w := by
  by_cases hne : getId w = getId x
  · exact ⟨x, saveById_mem getId x l, hne.symm⟩
  · exact ⟨w, saveById_mem_of_ne getId x w l hw hne, rfl⟩

/-- C5: the claim (and the spec) say that no RPC failure inside a
height's processing may crash the loop, and in particular that after
an RPC call returns an error while the client connection still reports
itself running, the loop must not use the nil result.  The code
violates this: with the connection running, a failed `Commit` call
falls through to `res.Height` (nil dereference) in `handleVote`, a
failed `Status` call falls through to `b.SyncInfo` in `Start`, a
failed `ABCIQuery` falls through to `res.Response.Code` in
`queryAccount`, and a failed `BlockResults` falls through to
`events.TxsResults` — each modelled as the `crash` outcome here, at
concrete inputs. -/
theorem c5_rpc_error_nil_deref_crash :
    handleVote ⟨none, true, true, fun _ => ⟨some 0, none, true, true⟩⟩
      ⟨none, [], [], [], [], [], []⟩ = .crash ⟨none, [], [], [], [], [], []⟩ ∧
    queryAccount ⟨none, none, true, true⟩ = .crash none ∧
    runTick ⟨none, true, true,
        fun _ => ⟨none, true, true, ⟨none, true, true, fun _ => ⟨none, none, true, true⟩⟩, true⟩, 5⟩
      ⟨⟨none, [], [], [], [], [], []⟩, 1⟩ =
      .crashed ⟨⟨none, [], [], [], [], [], []⟩, 1⟩ ∧
    stepHeight ⟨none, true, true, ⟨none, true, true, fun _ => ⟨none, none, true, true⟩⟩, true⟩
      ⟨⟨none, [], [], [], [], [], []⟩, 1⟩ =
      .crash ⟨⟨none, [], [], [], [], [], []⟩, 1⟩ :=
  ⟨rfl, rfl, rfl, rfl⟩

/-- C10: when every record matching the commit height has primary
key 0 — whether because no record matches or because a matching record
genuinely has id 0, which the `record.Id != 0` guard cannot tell apart
— `handleVote` inserts no vote rows and returns success with the store
unchanged. -/
theorem c10_zero_id_treated_as_no_match (env : HvEnv) (db : DB) (res : Commit)
    (hc : env.commitRes = some res)
    (h1 : (newPropAt db res.height).id = 0)
    (h2 : (settlePropAt db res.height).id = 0)
    (h3 : (grantAt db res.height).id = 0) :
    handleVote env db = .ok db :=
  handleVote_eq_nomatch hc h1 h2 h3

/-- Witness for C10: a store that does contain a `Proposal` with
creation height 5 and a `Grant` with height 5, both with primary
key 0; reconciliation at height 5 still treats them as no match and
succeeds without writing anything. -/
theorem c10_zero_id_treated_as_no_match_witness :
    handleVote ⟨some ⟨5, [⟨"aa", 7⟩]⟩, true, true, fun _ => ⟨some 0, some ⟨3, "aa"⟩, true, true⟩⟩
      ⟨none, [], [⟨0, 2, "p", [], 5, 0, 0⟩], [⟨0, "g", 5, 1, 2, "p", true⟩], [], [], []⟩ =
      .ok ⟨none, [], [⟨0, 2, "p", [], 5, 0, 0⟩], [⟨0, "g", 5, 1, 2, "p", true⟩], [], [], []⟩ :=
  c10_zero_id_treated_as_no_match _ _ ⟨5, [⟨"aa", 7⟩]⟩ rfl rfl rfl rfl

/-- C9: for every Grant event that decodes, the handler upserts a
`Validator` keyed by the event's validator index carrying the on-chain
address, the service-endpoint reference (`AgentUrl`) and the stake
amount; validators with other keys survive untouched, every previously
present key is still present afterwards (never deleted), and an
undecodable event changes nothing. -/
theorem c9_grant_upserts_validator (db : DB) (ev : EventGrant) (h : Nat) :
    (∃ v ∈ (handleEventGrant db (some ev) h).validators,
      v.id = ev.validator ∧ v.address = ev.address ∧ v.stake = ev.amount ∧
      v.agentUrl = ev.agentUrl) ∧
    (∀ w ∈ db.validators, w.id ≠ ev.validator →
      w ∈ (handleEventGrant db (some ev) h).validators) ∧
    (∀ w ∈ db.validators,
      ∃ w' ∈ (handleEventGrant db (some ev) h).validators, w'.id = w.id) ∧
    handleEventGrant db none h = db := by
  have hval : (handleEventGrant db (some ev) h).validators =
      saveById Validator.id ⟨ev.validator, ev.address, ev.amount, ev.agentUrl⟩ db.validators := by
    simp [handleEventGrant]
  refine ⟨?_, ?_, ?_, rfl⟩
  · refine ⟨⟨ev.validator, ev.address, ev.amount, ev.agentUrl⟩, ?_, rfl, rfl, rfl, rfl⟩
    rw [hval]
    exact saveById_mem _ _ _
  · intro w hw hne
    rw [hval]
    exact saveById_mem_of_ne _ _ _ _ hw hne
  · intro w hw
    rw [hval]
    exact saveById_key_surv _ _ _ _ hw

/-- Witness for C9: a concrete Grant event over a store holding a
validator with a different key; the new validator appears with the
event's attributes and the old one survives. -/
theorem c9_grant_upserts_validator_witness :
    (∃ v ∈ (handleEventGrant ⟨none, [⟨7, "old", 1, "u"⟩], [], [], [], [], []⟩
        (some ⟨3, "addr3", 50, 2, "p", true, "url3"⟩) 9).validators,
      v.id = 3 ∧ v.address = "addr3" ∧ v.stake = 50 ∧ v.agentUrl = "url3") ∧
    (⟨7, "old", 1, "u"⟩ : Validator) ∈
      (handleEventGrant ⟨none, [⟨7, "old", 1, "u"⟩], [], [], [], [], []⟩
        (some ⟨3, "addr3", 50, 2, "p", true, "url3"⟩) 9).validators := by
  have hthm := c9_grant_upserts_validator ⟨none, [⟨7, "old", 1, "u"⟩], [], [], [], [], []⟩
    ⟨3, "addr3", 50, 2, "p", true, "url3"⟩ 9
  exact ⟨hthm.1, hthm.2.1 ⟨7, "old", 1, "u"⟩ (by simp) (by decide)⟩

/-- Counterexample to C7 as stated: a proposal whose settlement height
is already non-zero (150).  A second SettleProposal event for the same
proposal at height 200 changes the settlement height to 200, and a
replayed Proposal event for the same id resets it to zero — both
contradicting "once the settlement height is non-zero, no later event
changes the settlement height or resets it to zero". -/
theorem c7_settle_overwrite_counterexample :
    (handleEventSettleProposal
        ⟨none, [], [⟨1, 2, "p", [], 100, 150, 1⟩], [], [], [], []⟩
        (some ⟨1, 9⟩) 200).proposals = [⟨1, 2, "p", [], 100, 200, 9⟩] ∧
    (handleEventProposal
        ⟨none, [], [⟨1, 2, "p", [], 100, 150, 1⟩], [], [], [], []⟩
        (some ⟨1, 2, "p", [], 1⟩) 100).proposals = [⟨1, 2, "p", [], 100, 0, 1⟩] ∧
    (150 : Nat) ≠ 200 ∧ (150 : Nat) ≠ 0 := by
  exact ⟨rfl, rfl, by decide, by decide⟩

/-- C7 amended: the SettleProposal handler sets the referenced
existing proposal's status and settlement height to the event's state
and the event's height unconditionally — so the first settle event
mutates them, but a later settle event overwrites the settlement
height again, and a replayed Proposal event for the same id rewrites
the row with settlement height zero; the settle handler leaves the
proposal's id and creation height unchanged. -/
theorem c7_settle_sets_unconditionally (db : DB) (ev : EventSettleProposal)
    (ev2 : EventProposal) (h h2 : Nat) (p : Proposal)
    (hp : firstBy Proposal.id (fun q => q.id == ev.proposal) db.proposals = some p) :
    (handleEventSettleProposal db (some ev) h).proposals =
      saveById Proposal.id { p with status := ev.state, settleHeight := h } db.proposals ∧
    ({ p with status := ev.state, settleHeight := h }).newHeight = p.newHeight ∧
    ({ p with status := ev.state, settleHeight := h }).id = p.id ∧
    (handleEventProposal db (some ev2) h2).proposals =
      saveById Proposal.id
        ⟨ev2.proposalIndex, ev2.proposer, ev2.proposerAddress, ev2.data, h2, 0, ev2.status⟩
        db.proposals := by
  refine ⟨?_, rfl, rfl, rfl⟩
  simp [handleEventSettleProposal, hp]

/-- Witness for the amended C7 at a concrete store and events. -/
theorem c7_settle_sets_unconditionally_witness :
    (handleEventSettleProposal ⟨none, [], [⟨1, 2, "p", [], 100, 150, 1⟩], [], [], [], []⟩
        (some ⟨1, 9⟩) 200).proposals =
      saveById Proposal.id ⟨1, 2, "p", [], 100, 200, 9⟩ [⟨1, 2, "p", [], 100, 150, 1⟩] :=
  (c7_settle_sets_unconditionally
    ⟨none, [], [⟨1, 2, "p", [], 100, 150, 1⟩], [], [], [], []⟩
    ⟨1, 9⟩ ⟨1, 2, "p", [], 1⟩ 200 100 ⟨1, 2, "p", [], 100, 150, 1⟩ rfl).1

/-- C1: the progress record is written to the processed height `H`
only by a successful iteration, which requires that `handleVote`
returned success on the store state obtained after dispatching all of
`H`'s block-result events and that the height save succeeded; when
`handleVote` errs, or the height save fails, the iteration ends with
both the persisted progress record and the in-memory height
unchanged. -/
theorem c1_persist_only_after_dispatch_and_votes (env : HeightEnv) (s : IndexerState) :
    (∀ s', stepHeight env s = .ok s' →
      env.saveHeightOk = true ∧
      ∃ txs d, env.blockRes = some txs ∧
        handleVote env.hv (dispatchTxs txs s.memHeight s.db) = .ok d ∧
        s' = ⟨{ d with heightRow := some s.memHeight }, s.memHeight + 1⟩) ∧
    (∀ s', stepHeight env s = .err s' →
      s'.memHeight = s.memHeight ∧ s'.db.heightRow = s.db.heightRow) ∧
    (∀ txs d, env.blockRes = some txs →
      handleVote env.hv (dispatchTxs txs s.memHeight s.db) = .err d →
      stepHeight env s = .err ⟨d, s.memHeight⟩) ∧
    (∀ txs d, env.blockRes = some txs →
      handleVote env.hv (dispatchTxs txs s.memHeight s.db) = .ok d →
      env.saveHeightOk = false → stepHeight env s = .err ⟨d, s.memHeight⟩) := by
  refine ⟨?_, fun s' h => stepHeight_err_state h, ?_, ?_⟩
  · intro s' h
    unfold stepHeight at h
    cases hb : env.blockRes with
    | none =>
      rw [hb] at h
      by_cases h1 : env.brRunning <;> by_cases h2 : env.brReconnectOk <;>
        simp [h1, h2] at h
    | some txs =>
      rw [hb] at h
      simp only at h
      cases hv : handleVote env.hv (dispatchTxs txs s.memHeight s.db) with
      | crash d => rw [hv] at h; simp at h
      | err d => rw [hv] at h; simp at h
      | ok d =>
        rw [hv] at h
        simp only at h
        by_cases hs : env.saveHeightOk
        · rw [if_pos hs] at h
          injection h with h
          exact ⟨hs, txs, d, rfl, hv, h.symm⟩
        · simp [hs] at h
  · intro txs d hb hv
    unfold stepHeight
    rw [hb]
    simp only
    rw [hv]
  · intro txs d hb hv hs
    unfold stepHeight
    rw [hb]
    simp only
    rw [hv]
    simp only
    rw [if_neg (by simp [hs])]

/-- Witness for C1: a height whose block results carry no events and
whose commit fetch fails with a down, unrecoverable connection, so
reconciliation errs; the iteration leaves the state untouched. -/
theorem c1_persist_only_after_dispatch_and_votes_witness :
    stepHeight
      ⟨some [[]], true, true, ⟨none, false, false, fun _ => ⟨some 0, none, true, true⟩⟩, true⟩
      ⟨⟨none, [], [], [], [], [], []⟩, 1⟩ =
      .err ⟨⟨none, [], [], [], [], [], []⟩, 1⟩ :=
  (c1_persist_only_after_dispatch_and_votes
    ⟨some [[]], true, true, ⟨none, false, false, fun _ => ⟨some 0, none, true, true⟩⟩, true⟩
    ⟨⟨none, [], [], [], [], [], []⟩, 1⟩).2.2.1 [[]] ⟨none, [], [], [], [], [], []⟩ rfl rfl

/-- C2: vote reconciliation is idempotent — a second run of
`handleVote` from a state it produced succeeds and changes nothing —
and it never creates a duplicate (height, voter index) key in either
vote table. -/
theorem c2_vote_reconciliation_idempotent (env : HvEnv) (db db' : DB)
    (h : handleVote env db = .ok db') :
    handleVote env db' = .ok db' ∧
    (NoDupKeys (fun r => (r.height, r.voterIndex)) db.proposalVotes →
      NoDupKeys (fun r => (r.height, r.voterIndex)) db'.proposalVotes) ∧
    (NoDupKeys (fun r => (r.height, r.voterIndex)) db.grantVotes →
      NoDupKeys (fun r => (r.height, r.voterIndex)) db'.grantVotes) := by
  cases hc : env.commitRes with
  | none =>
    rw [handleVote_eq_none db hc] at h
    by_cases h1 : env.isRunning <;> by_cases h2 : env.reconnectOk <;> simp [h1, h2] at h
  | some res =>
    by_cases h1 : (newPropAt db res.height).id ≠ 0
    · rw [handleVote_eq_new hc h1] at h
      obtain ⟨w, hrec, hdb'⟩ := Res.mapRes_ok_inv h
      have hprop : db'.proposals = db.proposals := by rw [hdb']
      have hpv : db'.proposalVotes = w := by rw [hdb']
      have hgv : db'.grantVotes = db.grantVotes := by rw [hdb']
      have hnp : newPropAt db' res.height = newPropAt db res.height := by
        unfold newPropAt; rw [hprop]
      have h1' : (newPropAt db' res.height).id ≠ 0 := by rw [hnp]; exact h1
      refine ⟨?_, ?_, ?_⟩
      · rw [handleVote_eq_new hc h1', hnp, hpv,
          reconcileSigs_stable env res.height (fun r => (r.height, r.voterIndex))
            (mkProposalVote res.height (newPropAt db res.height).id) res.signatures w
            (reconcileSigs_ok_mem env res.height (fun r => (r.height, r.voterIndex))
              (mkProposalVote res.height (newPropAt db res.height).id)
              (fun _ _ _ => rfl) res.signatures db.proposalVotes w hrec)]
        simp only [Res.mapRes]
        rw [hdb']
      · intro hnd
        rw [hpv]
        have hnodup := reconcileSigs_nodup env res.height
          (fun r => (r.height, r.voterIndex))
          (mkProposalVote res.height (newPropAt db res.height).id)
          (fun _ _ _ => rfl) res.signatures db.proposalVotes hnd
        rw [hrec] at hnodup
        simpa [Res.payload] using hnodup
      · intro hnd; rw [hgv]; exact hnd
    · push_neg at h1
      by_cases h2 : (settlePropAt db res.height).id ≠ 0
      · rw [handleVote_eq_settle hc h1 h2] at h
        obtain ⟨w, hrec, hdb'⟩ := Res.mapRes_ok_inv h
        have hprop : db'.proposals = db.proposals := by rw [hdb']
        have hpv : db'.proposalVotes = w := by rw [hdb']
        have hgv : db'.grantVotes = db.grantVotes := by rw [hdb']
        have hnp : newPropAt db' res.height = newPropAt db res.height := by
          unfold newPropAt; rw [hprop]
        have hsp : settlePropAt db' res.height = settlePropAt db res.height := by
          unfold settlePropAt; rw [hprop]
        have h1' : (newPropAt db' res.height).id = 0 := by rw [hnp]; exact h1
        have h2' : (settlePropAt db' res.height).id ≠ 0 := by rw [hsp]; exact h2
        refine ⟨?_, ?_, ?_⟩
        · rw [handleVote_eq_settle hc h1' h2', hsp, hpv,
            reconcileSigs_stable env res.height (fun r => (r.height, r.voterIndex))
              (mkProposalVote res.height (settlePropAt db res.height).id) res.signatures w
              (reconcileSigs_ok_mem env res.height (fun r => (r.height, r.voterIndex))
                (mkProposalVote res.height (settlePropAt db res.height).id)
                (fun _ _ _ => rfl) res.signatures db.proposalVotes w hrec)]
          simp only [Res.mapRes]
          rw [hdb']
        · intro hnd
          rw [hpv]
          have hnodup := reconcileSigs_nodup env res.height
            (fun r => (r.height, r.voterIndex))
            (mkProposalVote res.height (settlePropAt db res.height).id)
            (fun _ _ _ => rfl) res.signatures db.proposalVotes hnd
          rw [hrec] at hnodup
          simpa [Res.payload] using hnodup
        · intro hnd; rw [hgv]; exact hnd
      · push_neg at h2
        by_cases h3 : (grantAt db res.height).id ≠ 0
        · rw [handleVote_eq_grant hc h1 h2 h3] at h
          obtain ⟨w, hrec, hdb'⟩ := Res.mapRes_ok_inv h
          have hprop : db'.proposals = db.proposals := by rw [hdb']
          have hgr : db'.grants = db.grants := by rw [hdb']
          have hpv : db'.proposalVotes = db.proposalVotes := by rw [hdb']
          have hgv : db'.grantVotes = w := by rw [hdb']
          have hnp : newPropAt db' res.height = newPropAt db res.height := by
            unfold newPropAt; rw [hprop]
          have hsp : settlePropAt db' res.height = settlePropAt db res.height := by
            unfold settlePropAt; rw [hprop]
          have hga : grantAt db' res.height = grantAt db res.height := by
            unfold grantAt; rw [hgr]
          have h1' : (newPropAt db' res.height).id = 0 := by rw [hnp]; exact h1
          have h2' : (settlePropAt db' res.height).id = 0 := by rw [hsp]; exact h2
          have h3' : (grantAt db' res.height).id ≠ 0 := by rw [hga]; exact h3
          refine ⟨?_, ?_, ?_⟩
          · rw [handleVote_eq_grant hc h1' h2' h3', hga, hgv,
              reconcileSigs_stable env res.height (fun r => (r.height, r.voterIndex))
                (mkGrantVote res.height (grantAt db res.height)) res.signatures w
                (reconcileSigs_ok_mem env res.height (fun r => (r.height, r.voterIndex))
                  (mkGrantVote res.height (grantAt db res.height))
                  (fun _ _ _ => rfl) res.signatures db.grantVotes w hrec)]
            simp only [Res.mapRes]
            rw [hdb']
          · intro hnd; rw [hpv]; exact hnd
          · intro hnd
            rw [hgv]
            have hnodup := reconcileSigs_nodup env res.height
              (fun r => (r.height, r.voterIndex))
              (mkGrantVote res.height (grantAt db res.height))
              (fun _ _ _ => rfl) res.signatures db.grantVotes hnd
            rw [hrec] at hnodup
            simpa [Res.payload] using hnodup
        · push_neg at h3
          rw [handleVote_eq_nomatch hc h1 h2 h3] at h
          injection h with h
          rw [← h]
          exact ⟨handleVote_eq_nomatch hc h1 h2 h3, fun hnd => hnd, fun hnd => hnd⟩

/-- Witness for C2: a concrete successful reconciliation at height 5
with two resolvable signatures; a second run returns the same state
unchanged. -/
theorem c2_vote_reconciliation_idempotent_witness :
    handleVote
      ⟨some ⟨5, [⟨"aa", 2⟩, ⟨"bb", 2⟩]⟩, true, true,
        fun a => if a = "aa" then ⟨some 0, some ⟨3, "aa"⟩, true, true⟩
          else ⟨some 0, some ⟨4, "bb"⟩, true, true⟩⟩
      ⟨none, [], [⟨1, 2, "p", [], 5, 0, 0⟩], [], [⟨1, 1, 3, "aa", 5, 2⟩, ⟨2, 1, 4, "bb", 5, 2⟩], [], []⟩ =
      .ok ⟨none, [], [⟨1, 2, "p", [], 5, 0, 0⟩], [],
        [⟨1, 1, 3, "aa", 5, 2⟩, ⟨2, 1, 4, "bb", 5, 2⟩], [], []⟩ :=
  (c2_vote_reconciliation_idempotent
    ⟨some ⟨5, [⟨"aa", 2⟩, ⟨"bb", 2⟩]⟩, true, true,
      fun a => if a = "aa" then ⟨some 0, some ⟨3, "aa"⟩, true, true⟩
        else ⟨some 0, some ⟨4, "bb"⟩, true, true⟩⟩
    ⟨none, [], [⟨1, 2, "p", [], 5, 0, 0⟩], [], [], [], []⟩
    ⟨none, [], [⟨1, 2, "p", [], 5, 0, 0⟩], [],
      [⟨1, 1, 3, "aa", 5, 2⟩, ⟨2, 1, 4, "bb", 5, 2⟩], [], []⟩
    (by decide)).1

/-- C3: `handleVote` checks the three pending-record kinds in the
fixed order new-proposal, settle-proposal, grant; only the first
matching kind is reconciled — a proposal match leaves the grant-vote
table untouched and appends only rows for that proposal, a grant match
leaves the proposal-vote table untouched — and when none match it
returns success with the store unchanged. -/
theorem c3_reconcile_priority_order (env : HvEnv) (db : DB) (res : Commit)
    (hc : env.commitRes = some res) :
    ((newPropAt db res.height).id ≠ 0 →
      (handleVote env db).payload.grantVotes = db.grantVotes ∧
      ∃ ext, (handleVote env db).payload.proposalVotes = db.proposalVotes ++ ext ∧
        ∀ r ∈ ext, r.proposal = (newPropAt db res.height).id ∧ r.height = res.height) ∧
    ((newPropAt db res.height).id = 0 → (settlePropAt db res.height).id ≠ 0 →
      (handleVote env db).payload.grantVotes = db.grantVotes ∧
      ∃ ext, (handleVote env db).payload.proposalVotes = db.proposalVotes ++ ext ∧
        ∀ r ∈ ext, r.proposal = (settlePropAt db res.height).id ∧ r.height = res.height) ∧
    ((newPropAt db res.height).id = 0 → (settlePropAt db res.height).id = 0 →
      (grantAt db res.height).id ≠ 0 →
      (handleVote env db).payload.proposalVotes = db.proposalVotes ∧
      ∃ ext, (handleVote env db).payload.grantVotes = db.grantVotes ++ ext ∧
        ∀ r ∈ ext, r.accountIndex = (grantAt db res.height).id ∧ r.height = res.height) ∧
    ((newPropAt db res.height).id = 0 → (settlePropAt db res.height).id = 0 →
      (grantAt db res.height).id = 0 → handleVote env db = .ok db) := by
  refine ⟨?_, ?_, ?_, fun h1 h2 h3 => handleVote_eq_nomatch hc h1 h2 h3⟩
  · intro h1
    rw [handleVote_eq_new hc h1, Res.payload_mapRes]
    obtain ⟨ext, he, hr⟩ := reconcileSigs_append env res.height
      (fun r => (r.height, r.voterIndex))
      (mkProposalVote res.height (newPropAt db res.height).id)
      res.signatures db.proposalVotes
    refine ⟨rfl, ext, by simpa using he, ?_⟩
    intro r hrext
    obtain ⟨n, a, v, _, _, hrm⟩ := hr r hrext
    rw [hrm]
    exact ⟨rfl, rfl⟩
  · intro h1 h2
    rw [handleVote_eq_settle hc h1 h2, Res.payload_mapRes]
    obtain ⟨ext, he, hr⟩ := reconcileSigs_append env res.height
      (fun r => (r.height, r.voterIndex))
      (mkProposalVote res.height (settlePropAt db res.height).id)
      res.signatures db.proposalVotes
    refine ⟨rfl, ext, by simpa using he, ?_⟩
    intro r hrext
    obtain ⟨n, a, v, _, _, hrm⟩ := hr r hrext
    rw [hrm]
    exact ⟨rfl, rfl⟩
  · intro h1 h2 h3
    rw [handleVote_eq_grant hc h1 h2 h3, Res.payload_mapRes]
    obtain ⟨ext, he, hr⟩ := reconcileSigs_append env res.height
      (fun r => (r.height, r.voterIndex))
      (mkGrantVote res.height (grantAt db res.height))
      res.signatures db.grantVotes
    refine ⟨rfl, ext, by simpa using he, ?_⟩
    intro r hrext
    obtain ⟨n, a, v, _, _, hrm⟩ := hr r hrext
    rw [hrm]
    exact ⟨rfl, rfl⟩

/-- Witness for C3: a height matched by no pending record — a store
whose only proposal was created at a different height — where
reconciliation is a no-op success. -/
theorem c3_reconcile_priority_order_witness :
    handleVote ⟨some ⟨9, [⟨"aa", 2⟩]⟩, true, true, fun _ => ⟨some 0, some ⟨3, "aa"⟩, true, true⟩⟩
      ⟨none, [], [⟨1, 2, "p", [], 5, 0, 0⟩], [], [], [], []⟩ =
      .ok ⟨none, [], [⟨1, 2, "p", [], 5, 0, 0⟩], [], [], [], []⟩ :=
  (c3_reconcile_priority_order
    ⟨some ⟨9, [⟨"aa", 2⟩]⟩, true, true, fun _ => ⟨some 0, some ⟨3, "aa"⟩, true, true⟩⟩
    ⟨none, [], [⟨1, 2, "p", [], 5, 0, 0⟩], [], [], [], []⟩
    ⟨9, [⟨"aa", 2⟩]⟩ rfl).2.2.2 rfl rfl rfl

/-- Counterexample to C4 as stated: a height (101) whose commit does
contain a signature whose address does not resolve, but which no
pending record matches.  `handleVote` never looks the signer up — the
account query only happens inside a matched branch — and returns
success, not an error. -/
theorem c4_unresolvable_signer_counterexample :
    badLookup (queryAccount
      (HvEnv.qa ⟨some ⟨101, [⟨"cc", 2⟩]⟩, true, true, fun _ => ⟨some 1, none, true, true⟩⟩
        "cc")) = true ∧
    handleVote ⟨some ⟨101, [⟨"cc", 2⟩]⟩, true, true, fun _ => ⟨some 1, none, true, true⟩⟩
      ⟨none, [], [], [], [], [], []⟩ = .ok ⟨none, [], [], [], [], [], []⟩ :=
  ⟨rfl, rfl⟩

/-- C4 amended: for a height matched by a pending record (first-match
kind per the priority order), a commit containing a signature whose
account lookup fails (error or absent account, no lookup crashing)
makes `handleVote` return an error without touching the progress
record; an erroring iteration never advances the persisted or
in-memory height; and a re-run against the same commit once every
signature resolves succeeds and leaves every signer's
(height, voter index) key present in a vote table. -/
theorem c4_unresolvable_signer_matched (env env' : HvEnv) (db : DB) (res : Commit)
    (hc : env.commitRes = some res) (hc' : env'.commitRes = some res)
    (hmatch : (newPropAt db res.height).id ≠ 0 ∨
      ((newPropAt db res.height).id = 0 ∧ (settlePropAt db res.height).id ≠ 0) ∨
      ((newPropAt db res.height).id = 0 ∧ (settlePropAt db res.height).id = 0 ∧
        (grantAt db res.height).id ≠ 0))
    (hnc : ∀ v ∈ res.signatures,
      (queryAccount (env.qa v.validatorAddress)).isCrash = false)
    (hbad : ∃ v ∈ res.signatures,
      badLookup (queryAccount (env.qa v.validatorAddress)) = true)
    (hres : ∀ v ∈ res.signatures,
      ∃ a, queryAccount (env'.qa v.validatorAddress) = .ok (some a)) :
    (∃ d, handleVote env db = .err d ∧ d.heightRow = db.heightRow) ∧
    (∀ henv s s', stepHeight henv s = .err s' →
      s'.memHeight = s.memHeight ∧ s'.db.heightRow = s.db.heightRow) ∧
    (∀ d, handleVote env db = .err d →
      ∃ db', handleVote env' d = .ok db' ∧
        ∀ v ∈ res.signatures, ∀ a,
          queryAccount (env'.qa v.validatorAddress) = .ok (some a) →
          (db'.proposalVotes.any
            (fun r => r.height == res.height && r.voterIndex == a.index) = true ∨
           db'.grantVotes.any
            (fun r => r.height == res.height && r.voterIndex == a.index) = true)) := by
  refine ⟨?_, fun henv s s' h => stepHeight_err_state h, ?_⟩
  · rcases hmatch with h1 | ⟨h1, h2⟩ | ⟨h1, h2, h3⟩
    · obtain ⟨w, hw⟩ := reconcileSigs_badsig env res.height
        (fun r => (r.height, r.voterIndex))
        (mkProposalVote res.height (newPropAt db res.height).id)
        res.signatures db.proposalVotes hnc hbad
      exact ⟨{ db with proposalVotes := w },
        by rw [handleVote_eq_new hc h1, hw]; rfl, rfl⟩
    · obtain ⟨w, hw⟩ := reconcileSigs_badsig env res.height
        (fun r => (r.height, r.voterIndex))
        (mkProposalVote res.height (settlePropAt db res.height).id)
        res.signatures db.proposalVotes hnc hbad
      exact ⟨{ db with proposalVotes := w },
        by rw [handleVote_eq_settle hc h1 h2, hw]; rfl, rfl⟩
    · obtain ⟨w, hw⟩ := reconcileSigs_badsig env res.height
        (fun r => (r.height, r.voterIndex))
        (mkGrantVote res.height (grantAt db res.height))
        res.signatures db.grantVotes hnc hbad
      exact ⟨{ db with grantVotes := w },
        by rw [handleVote_eq_grant hc h1 h2 h3, hw]; rfl, rfl⟩
  · intro d hd
    have hfr := handleVote_frame env db
    rw [hd] at hfr
    simp only [Res.payload] at hfr
    have hdp : d.proposals = db.proposals := hfr.2.2.1
    have hdg : d.grants = db.grants := hfr.2.2.2.1
    have hnp : newPropAt d res.height = newPropAt db res.height := by
      unfold newPropAt; rw [hdp]
    have hsp : settlePropAt d res.height = settlePropAt db res.height := by
      unfold settlePropAt; rw [hdp]
    have hga : grantAt d res.height = grantAt db res.height := by
      unfold grantAt; rw [hdg]
    rcases hmatch with h1 | ⟨h1, h2⟩ | ⟨h1, h2, h3⟩
    · obtain ⟨w, hw⟩ := reconcileSigs_allOk env' res.height
        (fun r => (r.height, r.voterIndex))
        (mkProposalVote res.height (newPropAt d res.height).id)
        res.signatures d.proposalVotes hres
      refine ⟨{ d with proposalVotes := w }, ?_, ?_⟩
      · rw [handleVote_eq_new hc' (by rw [hnp]; exact h1), hw]
        rfl
      intro v hv a ha
      obtain ⟨a0, ha0, hany⟩ := reconcileSigs_ok_mem env' res.height
        (fun r => (r.height, r.voterIndex))
        (mkProposalVote res.height (newPropAt d res.height).id)
        (fun _ _ _ => rfl) res.signatures d.proposalVotes w hw v hv
      rw [ha] at ha0
      injection ha0 with ha0
      injection ha0 with ha0
      rw [← ha0] at hany
      exact Or.inl hany
    · obtain ⟨w, hw⟩ := reconcileSigs_allOk env' res.height
        (fun r => (r.height, r.voterIndex))
        (mkProposalVote res.height (settlePropAt d res.height).id)
        res.signatures d.proposalVotes hres
      refine ⟨{ d with proposalVotes := w }, ?_, ?_⟩
      · rw [handleVote_eq_settle hc' (by rw [hnp]; exact h1) (by rw [hsp]; exact h2), hw]
        rfl
      intro v hv a ha
      obtain ⟨a0, ha0, hany⟩ := reconcileSigs_ok_mem env' res.height
        (fun r => (r.height, r.voterIndex))
        (mkProposalVote res.height (settlePropAt d res.height).id)
        (fun _ _ _ => rfl) res.signatures d.proposalVotes w hw v hv
      rw [ha] at ha0
      injection ha0 with ha0
      injection ha0 with ha0
      rw [← ha0] at hany
      exact Or.inl hany
    · obtain ⟨w, hw⟩ := reconcileSigs_allOk env' res.height
        (fun r => (r.height, r.voterIndex))
        (mkGrantVote res.height (grantAt d res.height))
        res.signatures d.grantVotes hres
      refine ⟨{ d with grantVotes := w }, ?_, ?_⟩
      · rw [handleVote_eq_grant hc' (by rw [hnp]; exact h1) (by rw [hsp]; exact h2)
          (by rw [hga]; exact h3), hw]
        rfl
      intro v hv a ha
      obtain ⟨a0, ha0, hany⟩ := reconcileSigs_ok_mem env' res.height
        (fun r => (r.height, r.voterIndex))
        (mkGrantVote res.height (grantAt d res.height))
        (fun _ _ _ => rfl) res.signatures d.grantVotes w hw v hv
      rw [ha] at ha0
      injection ha0 with ha0
      injection ha0 with ha0
      rw [← ha0] at hany
      exact Or.inr hany

/-- Witness for the amended C4: height 5 matches a pending proposal;
the only signature's lookup errs under the first environment, so
reconciliation fails, and resolves to index 3 under the second, so the
re-run succeeds. -/
theorem c4_unresolvable_signer_matched_witness :
    ∃ d, handleVote
      ⟨some ⟨5, [⟨"aa", 2⟩]⟩, true, true, fun _ => ⟨some 1, none, true, true⟩⟩
      ⟨none, [], [⟨1, 2, "p", [], 5, 0, 0⟩], [], [], [], []⟩ = .err d ∧
      d.heightRow = (⟨none, [], [⟨1, 2, "p", [], 5, 0, 0⟩], [], [], [], []⟩ : DB).heightRow :=
  (c4_unresolvable_signer_matched
    ⟨some ⟨5, [⟨"aa", 2⟩]⟩, true, true, fun _ => ⟨some 1, none, true, true⟩⟩
    ⟨some ⟨5, [⟨"aa", 2⟩]⟩, true, true, fun _ => ⟨some 0, some ⟨3, "aa"⟩, true, true⟩⟩
    ⟨none, [], [⟨1, 2, "p", [], 5, 0, 0⟩], [], [], [], []⟩
    ⟨5, [⟨"aa", 2⟩]⟩ rfl rfl (Or.inl (by decide)) (by decide)
    ⟨⟨"aa", 2⟩, by decide, by decide⟩
    (fun v hv => ⟨⟨3, "aa"⟩, by
      have hva : v = ⟨"aa", 2⟩ := List.mem_singleton.mp hv
      rw [hva]
      rfl⟩)).1

/-- Counterexample to C6 as stated: a tick whose first catch-up
iteration fails (commit fetch error with a dead, unreconnectable
connection) is not aborted — the `continue` re-enters the catch-up
loop within the same tick, and the second iteration processes the same
height successfully, so the same tick ends with the height advanced
and persisted, not retried on the next tick. -/
theorem c6_same_tick_retry_counterexample :
    stepHeight
      ⟨some [[]], true, true, ⟨none, false, false, fun _ => ⟨some 0, none, true, true⟩⟩, true⟩
      ⟨⟨none, [], [], [], [], [], []⟩, 1⟩ =
      .err ⟨⟨none, [], [], [], [], [], []⟩, 1⟩ ∧
    tickLoopAux 2
      (fun k => if k = 0 then
        ⟨some [[]], true, true, ⟨none, false, false, fun _ => ⟨some 0, none, true, true⟩⟩, true⟩
       else
        ⟨some [[]], true, true,
          ⟨some ⟨1, []⟩, true, true, fun _ => ⟨some 0, none, true, true⟩⟩, true⟩)
      3 0 ⟨⟨none, [], [], [], [], [], []⟩, 1⟩ =
      .done ⟨⟨some 1, [], [], [], [], [], []⟩, 2⟩ :=
  ⟨rfl, rfl⟩

/-- C6 amended: when an iteration of the catch-up loop fails (block
fetch or vote reconciliation), the persisted height and the in-memory
height are unchanged and the same height is retried immediately by the
next iteration of the same tick's loop (after the 100 ms sleep), not
deferred to the next tick. -/
theorem c6_error_retry_same_tick (latest : Nat) (envs : Nat → HeightEnv)
    (fuel k : Nat) (s s' : IndexerState)
    (hlt : latest > s.memHeight) (hstep : stepHeight (envs k) s = .err s') :
    tickLoopAux latest envs (fuel + 1) k s = tickLoopAux latest envs fuel (k + 1) s' ∧
    s'.memHeight = s.memHeight ∧ s'.db.heightRow = s.db.heightRow := by
  refine ⟨?_, stepHeight_err_state hstep⟩
  rw [tickLoopAux, if_pos hlt, hstep]

/-- Witness for the amended C6 at the concrete tick of the
counterexample's shape. -/
theorem c6_error_retry_same_tick_witness :
    tickLoopAux 2
      (fun k => if k = 0 then
        ⟨some [[]], true, true, ⟨none, false, false, fun _ => ⟨some 0, none, true, true⟩⟩, true⟩
       else
        ⟨some [[]], true, true,
          ⟨some ⟨1, []⟩, true, true, fun _ => ⟨some 0, none, true, true⟩⟩, true⟩)
      3 0 ⟨⟨none, [], [], [], [], [], []⟩, 1⟩ =
    tickLoopAux 2
      (fun k => if k = 0 then
        ⟨some [[]], true, true, ⟨none, false, false, fun _ => ⟨some 0, none, true, true⟩⟩, true⟩
       else
        ⟨some [[]], true, true,
          ⟨some ⟨1, []⟩, true, true, fun _ => ⟨some 0, none, true, true⟩⟩, true⟩)
      2 1 ⟨⟨none, [], [], [], [], [], []⟩, 1⟩ :=
  (c6_error_retry_same_tick 2
    (fun k => if k = 0 then
      ⟨some [[]], true, true, ⟨none, false, false, fun _ => ⟨some 0, none, true, true⟩⟩, true⟩
     else
      ⟨some [[]], true, true,
        ⟨some ⟨1, []⟩, true, true, fun _ => ⟨some 0, none, true, true⟩⟩, true⟩)
    2 0 ⟨⟨none, [], [], [], [], [], []⟩, 1⟩ ⟨⟨none, [], [], [], [], [], []⟩, 1⟩
    (by decide) rfl).1

/-- The catch-up loop of one tick preserves the progress invariant and
never decreases the persisted height or the in-memory height. -/
lemma tickLoopAux_mono (latest : Nat) (envs : Nat → HeightEnv) :
    ∀ (fuel k : Nat) (s : IndexerState), persisted s < s.memHeight →
      persisted s ≤ persisted (tickLoopAux latest envs fuel k s).state ∧
      persisted (tickLoopAux latest envs fuel k s).state <
        (tickLoopAux latest envs fuel k s).state.memHeight ∧
      s.memHeight ≤ (tickLoopAux latest envs fuel k s).state.memHeight := by
  intro fuel
  induction fuel with
  | zero => intro k s hinv; exact ⟨le_refl _, hinv, le_refl _⟩
  | succ n ih =>
    intro k s hinv
    rw [tickLoopAux]
    by_cases hlt : latest > s.memHeight
    · rw [if_pos hlt]
      cases hstep : stepHeight (envs k) s with
      | crash s' =>
        obtain ⟨hm, hh⟩ := stepHeight_crash_state hstep
        simp only [TickRes.state]
        unfold persisted at *
        rw [hh, hm]
        exact ⟨le_refl _, hinv, le_refl _⟩
      | err s' =>
        obtain ⟨hm, hh⟩ := stepHeight_err_state hstep
        have hps : persisted s' = persisted s := by unfold persisted; rw [hh]
        have hinv' : persisted s' < s'.memHeight := by rw [hps, hm]; exact hinv
        obtain ⟨h1, h2, h3⟩ := ih (k + 1) s' hinv'
        exact ⟨by rw [← hps]; exact h1, h2, by rw [← hm]; exact h3⟩
      | ok s' =>
        obtain ⟨hm, hh, _⟩ := stepHeight_ok_state hstep
        have hps : persisted s' = s.memHeight := by unfold persisted; rw [hh]; rfl
        have hinv' : persisted s' < s'.memHeight := by
          rw [hps, hm]; exact Nat.lt_succ_self _
        obtain ⟨h1, h2, h3⟩ := ih (k + 1) s' hinv'
        refine ⟨le_trans ?_ h1, h2, le_trans ?_ h3⟩
        · rw [hps]; exact le_of_lt hinv
        · rw [hm]; exact Nat.le_succ _
    · rw [if_neg hlt]
      exact ⟨le_refl _, hinv, le_refl _⟩

/-- One whole tick preserves the progress invariant and never
decreases the persisted or in-memory height. -/
lemma runTick_mono (te : TickEnv) (s : IndexerState)
    (hinv : persisted s < s.memHeight) :
    persisted s ≤ persisted (runTick te s).state ∧
    persisted (runTick te s).state < (runTick te s).state.memHeight ∧
    s.memHeight ≤ (runTick te s).state.memHeight := by
  unfold runTick
  cases te.statusRes with
  | none =>
    by_cases h1 : te.stRunning <;> by_cases h2 : te.stReconnectOk <;>
      simp only [h1, h2, if_true, if_false, Bool.false_eq_true] <;>
      exact ⟨le_refl _, hinv, le_refl _⟩
  | some latest => exact tickLoopAux_mono latest te.envs te.fuel 0 s hinv

/-- Any sequence of ticks preserves the progress invariant and never
decreases the persisted or in-memory height. -/
lemma runTicks_mono : ∀ (ts : List TickEnv) (s : IndexerState),
    persisted s < s.memHeight →
    persisted s ≤ persisted (runTicks ts s) ∧
    persisted (runTicks ts s) < (runTicks ts s).memHeight ∧
    s.memHeight ≤ (runTicks ts s).memHeight := by
  intro ts
  induction ts with
  | nil => exact fun s h => ⟨le_refl _, h, le_refl _⟩
  | cons te rest ih =>
    intro s hinv
    rw [runTicks]
    have hmono := runTick_mono te s hinv
    cases ht : runTick te s with
    | crashed s' =>
      rw [ht] at hmono
      exact hmono
    | spin s' =>
      rw [ht] at hmono
      exact hmono
    | done s' =>
      rw [ht] at hmono
      obtain ⟨h1, h2, h3⟩ := hmono
      obtain ⟨h1', h2', h3'⟩ := ih s' h2
      exact ⟨le_trans h1 h1', h2', le_trans h3 h3'⟩

/-- Running further ticks never moves the persisted height below what
an earlier prefix of ticks reached. -/
lemma runTicks_append_mono : ∀ (l1 l2 : List TickEnv) (s : IndexerState),
    persisted s < s.memHeight →
    persisted (runTicks l1 s) ≤ persisted (runTicks (l1 ++ l2) s) := by
  intro l1
  induction l1 with
  | nil =>
    intro l2 s hinv
    simpa using (runTicks_mono l2 s hinv).1
  | cons te rest ih =>
    intro l2 s hinv
    rw [List.cons_append, runTicks, runTicks]
    have hmono := runTick_mono te s hinv
    cases ht : runTick te s with
    | crashed s' => exact le_refl _
    | spin s' => exact le_refl _
    | done s' =>
      rw [ht] at hmono
      exact ih l2 s' hmono.2.1

/-- C8: the indexer resumes at the persisted height plus one
(defaulting to 0 when no progress record exists); across any sequence
of ticks — including ticks that fail — the persisted height never
decreases and every intermediate state's next height stays above the
resumed-from height, so heights at or below the resume point are never
re-processed. -/
theorem c8_monotonic_progress_resume (db0 : DB) (l1 l2 : List TickEnv) :
    (initialState db0).memHeight = db0.heightRow.getD 0 + 1 ∧
    persisted (initialState db0) ≤ persisted (runTicks l1 (initialState db0)) ∧
    persisted (runTicks l1 (initialState db0)) ≤
      persisted (runTicks (l1 ++ l2) (initialState db0)) ∧
    db0.heightRow.getD 0 + 1 ≤ (runTicks l1 (initialState db0)).memHeight := by
  have hinv : persisted (initialState db0) < (initialState db0).memHeight :=
    Nat.lt_succ_self _
  obtain ⟨h1, _, h3⟩ := runTicks_mono l1 (initialState db0) hinv
  exact ⟨rfl, h1, runTicks_append_mono l1 l2 (initialState db0) hinv, h3⟩

end Agent
